import Mathlib

/-!
Verification of the BOSS core supervisor (event bus, catalog, runner,
launcher, hardware bridge) against its natural-language specification.

The Python sources under `src/boss/core` are shallowly embedded below:
pure functions become Lean functions, the stateful components become
explicit state-passing functions, fallible code returns `Except`, and
Python dictionaries become association lists with unique keys (JSON
objects and Python dicts cannot carry duplicate keys; the list order is
the insertion order, as for Python dicts).
-/

namespace Boss

/-- JSON-like runtime values, as produced by Python `json.loads` and
passed around in event payloads and manifest dictionaries.
Floating-point JSON numbers are not modelled: no claim involves them
(every numeric field in the claims is integer-valued). -/
inductive Val where
  | vint (n : Int)
  | vstr (s : String)
  | vbool (b : Bool)
  | vnull
  | vlist (elems : List Val)
  | vdict (fields : List (String × Val))
  deriving Repr

mutual

/-- Boolean equality on values.  Mirrors Python `==` closely enough for
the claims: Python additionally identifies `True`/`1` and `False`/`0`,
which we reproduce at top level (no claim compares containers of mixed
numeric/boolean type, and Python dict equality ignores order, which
never arises in the claims either). -/
def Val.beq : Val → Val → Bool
  | .vint a, .vint b => a == b
  | .vint a, .vbool b => a == (if b then (1 : Int) else 0)
  | .vbool a, .vint b => (if a then (1 : Int) else 0) == b
  | .vstr a, .vstr b => a == b
  | .vbool a, .vbool b => a == b
  | .vnull, .vnull => true
  | .vlist as, .vlist bs => Val.beqList as bs
  | .vdict as, .vdict bs => Val.beqFields as bs
  | _, _ => false

/-- Elementwise equality of value lists (Python list `==`). -/
def Val.beqList : List Val → List Val → Bool
  | [], [] => true
  | a :: as, b :: bs => Val.beq a b && Val.beqList as bs
  | _, _ => false

/-- Entrywise equality of field lists. -/
def Val.beqFields : List (String × Val) → List (String × Val) → Bool
  | [], [] => true
  | (ka, va) :: as, (kb, vb) :: bs => ka == kb && Val.beq va vb && Val.beqFields as bs
  | _, _ => false

end

instance : BEq Val := ⟨Val.beq⟩

/-- Python truthiness (`bool(x)`): empty containers, empty strings,
zero and `None` are falsy. -/
def Val.truthy : Val → Bool
  | .vint n => n != 0
  | .vstr s => s != ""
  | .vbool b => b
  | .vnull => false
  | .vlist elems => !elems.isEmpty
  | .vdict fields => !fields.isEmpty

/-- A Python dict with values of type α, keyed by κ (association list in
insertion order, unique keys). -/
abbrev PyDict (κ α : Type) := List (κ × α)

/-- Python `d.get(k)` / `d[k]`: value at the (unique) key, if present. -/
def dictGet {κ α : Type} [DecidableEq κ] : PyDict κ α → κ → Option α
  | [], _ => none
  | (k, v) :: rest, key => if k = key then some v else dictGet rest key

/-- Python `k in d`. -/
def dictHas {κ α : Type} [DecidableEq κ] (d : PyDict κ α) (key : κ) : Bool :=
  (dictGet d key).isSome

/-- Python `d[k] = v`: update in place if the key exists (the keys are
unique, so replacing the first occurrence is replacing the occurrence),
else append (insertion-order semantics of Python dicts). -/
def dictSet {κ α : Type} [DecidableEq κ] : PyDict κ α → κ → α → PyDict κ α
  | [], key, v => [(key, v)]
  | (k, a) :: rest, key, v =>
    if k = key then (key, v) :: rest else (k, a) :: dictSet rest key v

/-- Python `d.pop(k, None)`: remove the key if present (keys are
unique). -/
def dictPop {κ α : Type} [DecidableEq κ] : PyDict κ α → κ → PyDict κ α
  | [], _ => []
  | (k, a) :: rest, key =>
    if k = key then dictPop rest key else (k, a) :: dictPop rest key

/-- Python `list.remove(x)` (first occurrence; the source wraps the call
in try/except ValueError, so a missing element is a no-op). -/
def removeFirst {α : Type} [DecidableEq α] : List α → α → List α
  | [], _ => []
  | x :: rest, a => if x = a then rest else x :: removeFirst rest a

/-- Well-formed digit run of a Python integer literal string: digits
with single underscores strictly between digits. -/
def wfDigits : List Char → Bool
  | [] => false
  | [c] => c.isDigit
  | c :: '_' :: rest => c.isDigit && wfDigits rest
  | c :: rest => c.isDigit && wfDigits rest

/-- Numeric value of a digit-and-underscore run. -/
def digitsVal (cs : List Char) : Nat :=
  cs.foldl (fun n c => if c = '_' then n else n * 10 + (c.toNat - '0'.toNat)) 0

/-- Surrounding-whitespace strip (ASCII whitespace; Python also strips
some Unicode space characters, which no claim uses). -/
def pyStrip (cs : List Char) : List Char :=
  ((cs.dropWhile Char.isWhitespace).reverse.dropWhile Char.isWhitespace).reverse

/-- Python `int(s)` on a string: strips surrounding whitespace, accepts
an optional sign, decimal digits and single underscores between digits
(so the string encodings of an integer are not unique: "7", "07", "+7"
and " 7" all denote 7).  Unicode digits are not modelled (no claim uses
them).  Returns `none` where Python raises ValueError. -/
def pyInt? (s : String) : Option Int :=
  match pyStrip s.data with
  | '+' :: rest => if wfDigits rest then some (Int.ofNat (digitsVal rest)) else none
  | '-' :: rest => if wfDigits rest then some (-(Int.ofNat (digitsVal rest))) else none
  | rest => if wfDigits rest then some (Int.ofNat (digitsVal rest)) else none

/-- Python `str.title()` restricted to ASCII: the first letter of each
alphabetic run is uppercased, later letters lowercased. -/
def pyTitle (s : String) : String :=
  (s.data.foldl
    (fun (acc : List Char × Bool) c =>
      if c.isAlpha then
        (acc.1 ++ [if acc.2 then c.toLower else c.toUpper], true)
      else
        (acc.1 ++ [c], false))
    ([], false)).1.asString

/-! ## Events (src/boss/core/models/event.py, src/boss/core/events.py) -/

/-- Structured event flowing through the bus (`models/event.py`).  The
auto-filled UTC timestamp is not modelled: no claim reads it. -/
structure Event where
  eventType : String
  payload : PyDict String Val
  deriving Repr

/-- Well-known event type constants (`events.py`), restricted to the
ones the claims mention. -/
def SWITCH_CHANGED : String := "input.switch.changed"

/-- Event type for colour-button presses. -/
def BUTTON_PRESSED : String := "input.button.pressed"

/-- Event type for colour-button releases. -/
def BUTTON_RELEASED : String := "input.button.released"

/-- Event type for Go-button presses. -/
def GO_BUTTON_PRESSED : String := "input.go_button.pressed"

/-- Event type for LED state changes. -/
def LED_STATE_CHANGED : String := "output.led.state_changed"

/-- Event type for numeric display updates. -/
def DISPLAY_UPDATED : String := "output.display.updated"

/-- Event type for app launch requests. -/
def APP_LAUNCH_REQUESTED : String := "system.app.launch.requested"

/-- Event type published when an app starts. -/
def APP_STARTED : String := "system.app.started"

/-- Event type published when an app finishes. -/
def APP_FINISHED : String := "system.app.finished"

/-- Event type published when an app raises. -/
def APP_ERROR : String := "system.app.error"

/-! ## Event bus (src/boss/core/event_bus.py)

The bus has two independent concerns that the claims touch:
the bounded ingress queue (`publish`) and the subscription registry
with its dispatch loop (`subscribe` / `unsubscribe` / `_dispatch`).
The asyncio machinery (loop, consumer task, thread marshalling) is
orthogonal to the claims: `_consume` pops one event at a time in FIFO
order and hands it to `_dispatch`, so the claims about dispatch are
stated directly against the `_dispatch` embedding. -/

/-- Result of `asyncio.Queue.put_nowait`: raises QueueFull when the
queue is bounded (maxsize > 0) and already holds maxsize items. -/
def putNowait (maxsize : Nat) (q : List Event) (e : Event) : Except String (List Event) :=
  if 0 < maxsize ∧ maxsize ≤ q.length then .error "QueueFull"
  else .ok (q ++ [e])

/-- Result of `asyncio.Queue.get_nowait`: front of the FIFO queue, or
QueueEmpty. -/
def getNowait (q : List Event) : Except String (Event × List Event) :=
  match q with
  | [] => .error "QueueEmpty"
  | x :: rest => .ok (x, rest)

/-- `EventBus.publish` (event_bus.py lines 81-94): enqueue; on
QueueFull, drop the oldest queued event (ignoring QueueEmpty), log a
warning, then enqueue the new event.  The second `put_nowait` is
outside the try block, so the embedding keeps it fallible. -/
def publish (maxsize : Nat) (q : List Event) (e : Event) : Except String (List Event) :=
  match putNowait maxsize q e with
  | .ok q2 => .ok q2
  | .error _ =>
    let q1 := match getNowait q with
      | .ok (_, rest) => rest
      | .error _ => q
    putNowait maxsize q1 e

/-- One bus subscription (`_Subscription` dataclass).  The handler is
abstracted to its only bus-visible effect: whether it raises on a given
event.  Handler return values, sync/async shape and side effects
outside the bus are not modelled (dispatch awaits both shapes
transparently and ignores results). -/
structure Subscription where
  subId : String
  eventType : String
  raises : Event → Bool
  filterDict : Option (PyDict String Val)

/-- The bus subscription registry: `_subscriptions` (sub_id →
subscription) and `_type_index` (event_type → [sub_id, …]). -/
structure BusState where
  subscriptions : PyDict String Subscription
  typeIndex : PyDict String (List String)

/-- The empty registry (freshly constructed bus). -/
def BusState.empty : BusState := ⟨[], []⟩

/-- `EventBus._matches_filter`: AND-match of the filter dict against
the payload; a missing payload key reads as Python None. -/
def matchesFilter (e : Event) (fd : Option (PyDict String Val)) : Bool :=
  match fd with
  | none => true
  | some l => l.all (fun kv => Val.beq ((dictGet e.payload kv.1).getD Val.vnull) kv.2)

/-- `EventBus.subscribe`: record the subscription under a fresh id
(uuid4 in the source; the caller supplies the fresh id here) and append
the id to the type index (`setdefault(event_type, []).append`). -/
def BusState.subscribe (s : BusState) (subId eventType : String)
    (raises : Event → Bool) (filterDict : Option (PyDict String Val)) : BusState :=
  { subscriptions := dictSet s.subscriptions subId ⟨subId, eventType, raises, filterDict⟩
    typeIndex :=
      dictSet s.typeIndex eventType ((dictGet s.typeIndex eventType).getD [] ++ [subId]) }

/-- `EventBus.unsubscribe` (lines 131-141): pop the subscription; if it
existed, remove the id from its type index list (missing list or
missing element are no-ops). -/
def BusState.unsubscribe (s : BusState) (subId : String) : BusState :=
  match dictGet s.subscriptions subId with
  | none => s
  | some sub =>
    { subscriptions := dictPop s.subscriptions subId
      typeIndex :=
        match dictGet s.typeIndex sub.eventType with
        | none => s.typeIndex
        | some ids => dictSet s.typeIndex sub.eventType (removeFirst ids subId) }

/-- Body of the `_dispatch` loop over the snapshotted id list: look
each id up in the *current* `_subscriptions`, skip ids unsubscribed
meanwhile, skip non-matching filters, invoke the handler, and
auto-unsubscribe a handler that raises.  Returns the ids whose handler
was invoked (in invocation order) and the resulting registry. -/
def dispatchIds (e : Event) : BusState → List String → List String × BusState
  | s, [] => ([], s)
  | s, subId :: rest =>
    match dictGet s.subscriptions subId with
    | none => dispatchIds e s rest
    | some sub =>
      if matchesFilter e sub.filterDict then
        if sub.raises e then
          let s1 := s.unsubscribe subId
          let (tr, s2) := dispatchIds e s1 rest
          (subId :: tr, s2)
        else
          let (tr, s2) := dispatchIds e s rest
          (subId :: tr, s2)
      else dispatchIds e s rest

/-- `EventBus._dispatch` (lines 154-172): snapshot of the type index for
the event type (`list(self._type_index.get(event.event_type, []))`),
then the loop above. -/
def BusState.dispatch (s : BusState) (e : Event) : List String × BusState :=
  dispatchIds e s ((dictGet s.typeIndex e.eventType).getD [])

/-! ## App manifests (src/boss/core/models/manifest.py)

`AppManifest` is a pydantic model with `extra="forbid"`.  The embedding
validates a parsed JSON object (a `PyDict String Val`) field by field.
Pydantic v2 lax-mode coercions that no claim exercises (numeric strings
for int fields, "true"/"false" strings for bool fields, integral floats)
are not modelled; pydantic v2 does reject `bool` for `int` fields, which
is modelled. -/

/-- Validated manifest for a single mini-app directory. -/
structure AppManifest where
  name : String
  displayName : Option String
  description : String
  version : String
  author : String
  entryPoint : String
  timeoutSeconds : Int
  timeoutBehavior : String
  requiresNetwork : Bool
  requiresAudio : Bool
  tags : List String
  config : PyDict String Val
  requiredEnv : List String
  deriving Repr

/-- `AppManifest.effective_display_name`: the display name when set and
non-empty (Python truthiness), else the `name` field with underscores
replaced by spaces and title-cased. -/
def AppManifest.effectiveDisplayName (m : AppManifest) : String :=
  match m.displayName with
  | some d => if d ≠ "" then d else pyTitle ((m.name).replace "_" " ")
  | none => pyTitle ((m.name).replace "_" " ")

/-- The declared top-level field names; any other key violates
`extra="forbid"`. -/
def manifestFieldNames : List String :=
  ["name", "display_name", "description", "version", "author", "entry_point",
   "timeout_seconds", "timeout_behavior", "requires_network", "requires_audio",
   "tags", "config", "required_env"]

/-- Decode a string field. -/
def asStr : Val → Except String String
  | .vstr s => .ok s
  | _ => .error "ValidationError: string expected"

/-- Decode an int field.  Pydantic v2 rejects booleans for int fields. -/
def asInt : Val → Except String Int
  | .vint n => .ok n
  | _ => .error "ValidationError: int expected"

/-- Decode a bool field. -/
def asBool : Val → Except String Bool
  | .vbool b => .ok b
  | _ => .error "ValidationError: bool expected"

/-- Decode a list-of-strings field. -/
def asStrList : Val → Except String (List String)
  | .vlist elems =>
    elems.foldr
      (fun v acc => do
        let s ← asStr v
        let rest ← acc
        .ok (s :: rest))
      (.ok [])
  | _ => .error "ValidationError: list expected"

/-- Decode an optional field with a default. -/
def optField {α : Type} (raw : PyDict String Val) (key : String)
    (dflt : α) (dec : Val → Except String α) : Except String α :=
  match dictGet raw key with
  | none => .ok dflt
  | some v => dec v

/-- Decode the required `name` field. -/
def decodeName (raw : PyDict String Val) : Except String String :=
  match dictGet raw "name" with
  | none => .error "ValidationError: name field required"
  | some v => asStr v

/-- Decode the optional `display_name` field (`str | None`). -/
def decodeDisplayName (raw : PyDict String Val) : Except String (Option String) :=
  match dictGet raw "display_name" with
  | none => .ok none
  | some .vnull => .ok none
  | some (.vstr s) => .ok (some s)
  | some _ => .error "ValidationError: string or null expected"

/-- Decode `timeout_seconds` (`int`, default 120, constraint `ge=1`). -/
def decodeTimeoutSeconds (raw : PyDict String Val) : Except String Int :=
  match optField raw "timeout_seconds" 120 asInt with
  | .error e => .error e
  | .ok n =>
    if n < 1 then
      .error "ValidationError: timeout_seconds must be greater than or equal to 1"
    else .ok n

/-- Decode `timeout_behavior` (the literal "return", default
"return"). -/
def decodeTimeoutBehavior (raw : PyDict String Val) : Except String String :=
  match dictGet raw "timeout_behavior" with
  | none => .ok "return"
  | some (.vstr "return") => .ok "return"
  | some _ => .error "ValidationError: input should be return"

/-- Decode `config` (`dict[str, Any]`, default empty). -/
def decodeConfig (raw : PyDict String Val) : Except String (PyDict String Val) :=
  match dictGet raw "config" with
  | none => .ok []
  | some (.vdict fields) => .ok fields
  | some _ => .error "ValidationError: dict expected"

/-- Validation performed by `AppManifest(**raw)`: unknown top-level keys
are rejected (`extra="forbid"`), `name` is required, `timeout_seconds`
must satisfy `ge=1`, and `timeout_behavior` is the literal "return". -/
def validateManifest (raw : PyDict String Val) : Except String AppManifest :=
  if raw.any (fun p => !(manifestFieldNames.contains p.1)) then
    .error "ValidationError: extra fields not permitted"
  else match decodeName raw with
  | .error e => .error e
  | .ok name =>
  match decodeDisplayName raw with
  | .error e => .error e
  | .ok displayName =>
  match optField raw "description" "" asStr with
  | .error e => .error e
  | .ok description =>
  match optField raw "version" "1.0.0" asStr with
  | .error e => .error e
  | .ok version =>
  match optField raw "author" "" asStr with
  | .error e => .error e
  | .ok author =>
  match optField raw "entry_point" "main.py" asStr with
  | .error e => .error e
  | .ok entryPoint =>
  match decodeTimeoutSeconds raw with
  | .error e => .error e
  | .ok timeoutSeconds =>
  match decodeTimeoutBehavior raw with
  | .error e => .error e
  | .ok timeoutBehavior =>
  match optField raw "requires_network" false asBool with
  | .error e => .error e
  | .ok requiresNetwork =>
  match optField raw "requires_audio" false asBool with
  | .error e => .error e
  | .ok requiresAudio =>
  match optField raw "tags" [] asStrList with
  | .error e => .error e
  | .ok tags =>
  match decodeConfig raw with
  | .error e => .error e
  | .ok config =>
  match optField raw "required_env" [] asStrList with
  | .error e => .error e
  | .ok requiredEnv =>
  .ok ⟨name, displayName, description, version, author, entryPoint,
       timeoutSeconds, timeoutBehavior, requiresNetwork, requiresAudio,
       tags, config, requiredEnv⟩

/-- Top-level keys the v2→v3 migration strips (`_V2_STRIP_KEYS`). -/
def V2_STRIP_KEYS : List String := ["external_apis"]

/-- Python `x < 600` where x came out of a dict: defined for ints and
bools (bool is an int in Python), a TypeError for anything else. -/
def pyLt600 : Val → Except String Bool
  | .vint n => .ok (decide (n < 600))
  | .vbool b => .ok (decide ((if b then (1 : Int) else 0) < 600))
  | _ => .error "TypeError: unorderable types"

/-- `migrate_manifest_v2` (manifest.py lines 70-99): copy the raw dict,
apply the (currently empty) `_V2_RENAMES` table, strip `_V2_STRIP_KEYS`,
and normalize deprecated `timeout_behavior` values "none"/"rerun" to
"return", bumping `timeout_seconds` to 900 when the field is absent or
its value compares below 600. -/
def migrateManifestV2 (raw : PyDict String Val) : Except String (PyDict String Val) :=
  let out := raw
  let out := V2_STRIP_KEYS.foldl (fun d k => dictPop d k) out
  let tb := (dictGet out "timeout_behavior").getD (.vstr "return")
  if Val.beq tb (.vstr "none") || Val.beq tb (.vstr "rerun") then
    let out := dictSet out "timeout_behavior" (.vstr "return")
    if !(dictHas out "timeout_seconds") then
      .ok (dictSet out "timeout_seconds" (.vint 900))
    else
      match pyLt600 ((dictGet out "timeout_seconds").getD (.vint 120)) with
      | .error e => .error e
      | .ok true => .ok (dictSet out "timeout_seconds" (.vint 900))
      | .ok false => .ok out
  else
    .ok out

/-- The parse-and-validate pipeline applied to each manifest.json by
`AppManager._load_manifests`: `migrate_manifest_v2(raw)` followed by
`AppManifest(**raw)`. -/
def parseManifest (raw : PyDict String Val) : Except String AppManifest :=
  match migrateManifestV2 raw with
  | .error e => .error e
  | .ok migrated => validateManifest migrated

/-! ## App manager (src/boss/core/app_manager.py) -/

/-- One entry of `sorted(self._apps_dir.iterdir())`.  `manifestJson`
models the `manifest.json` file: `none` when the file is absent,
`some none` when `json.loads` fails or yields a non-object (both end in
the per-app `except` branch), `some (some raw)` when it parses to an
object. -/
structure DirEntry where
  name : String
  isDir : Bool
  manifestJson : Option (Option (PyDict String Val))

/-- Filesystem inputs of a scan.  `mappingsFile` models
`app_mappings.json`: `none` when the file is missing, `some none` when
its content is not parseable JSON, `some (some raw)` when it parses.
Parsed mapping values are modelled as strings (the file maps
string-encoded switch values to app names; a non-string value would
simply never be found in the manifest dict, like any unknown app). -/
structure ScanInputs where
  appsDirExists : Bool
  entries : List DirEntry
  mappingsFile : Option (Option (PyDict String String))

/-- The manager state the scan replaces: `_manifests` and
`_switch_map`. -/
structure AppManagerState where
  manifests : PyDict String AppManifest
  switchMap : PyDict Int String
  deriving Repr

/-- `AppManager._load_manifests`: walk the (sorted) directory entries;
for each subdirectory with a parseable, migratable, valid manifest,
record it under the directory name; every failure is per-app and
skipped.  Directory names are unique within a directory, so the
`manifests[child.name] = manifest` assignment is an insert. -/
def loadManifests (inp : ScanInputs) : PyDict String AppManifest :=
  if !inp.appsDirExists then []
  else
    inp.entries.foldl
      (fun acc e =>
        if !e.isDir then acc
        else
          match e.manifestJson with
          | none => acc
          | some none => acc
          | some (some raw) =>
            match parseManifest raw with
            | .ok m => dictSet acc e.name m
            | .error _ => acc)
      []

/-- Loop body of `AppManager._load_mappings` over one raw mapping
entry: skip keys that are not Python-int-parseable (warning), skip app
names with no discovered manifest (warning), bind the rest
(`switch_map[switch_val] = app_name`, so a later entry denoting the
same integer overwrites an earlier one). -/
def mappingStep (manifests : PyDict String AppManifest)
    (acc : PyDict Int String) (kv : String × String) : PyDict Int String :=
  match pyInt? kv.1 with
  | none => acc
  | some switchVal =>
    if dictHas manifests kv.2 then dictSet acc switchVal kv.2
    else acc

/-- `AppManager._load_mappings` (lines 105-127): missing file gives an
empty map with a warning; a file that fails to parse propagates the
exception; otherwise the loop above over the parsed entries. -/
def loadMappings (inp : ScanInputs) (manifests : PyDict String AppManifest) :
    Except String (PyDict Int String) :=
  match inp.mappingsFile with
  | none => .ok []
  | some none => .error "JSONDecodeError"
  | some (some raw) => .ok (raw.foldl (mappingStep manifests) [])

/-- `AppManager.scan_apps` (lines 45-58): replace `_manifests`, then
replace `_switch_map`; `_validate_required_env` only logs warnings and
is not modelled.  When `_load_mappings` raises, the exception
propagates to the caller with `_manifests` already replaced and
`_switch_map` still holding its pre-scan contents. -/
def scanApps (inp : ScanInputs) (s : AppManagerState) : AppManagerState × Option String :=
  let ms := loadManifests inp
  match loadMappings inp ms with
  | .ok sm => (⟨ms, sm⟩, none)
  | .error exc => (⟨ms, s.switchMap⟩, some exc)

/-- `AppManager.get_app_for_switch` (lines 60-62). -/
def getAppForSwitch (s : AppManagerState) (value : Int) : Option String :=
  dictGet s.switchMap value

/-- `AppManager.get_manifest`. -/
def getManifest (s : AppManagerState) (appName : String) : Option AppManifest :=
  dictGet s.manifests appName

/-! ## Scoped event bus (src/boss/core/app_api.py) -/

/-- `_ScopedEventBus.cleanup` (app_api.py lines 51-55): unsubscribe
every tracked id from the bus, then clear the tracking list.  Returns
the bus registry after the loop; the tracking list is `[]` by
construction afterwards. -/
def scopedCleanup (bus : BusState) (subIds : List String) : BusState :=
  subIds.foldl (fun b subId => b.unsubscribe subId) bus

/-! ## App runner (src/boss/core/app_runner.py)

The runner executes the unit body on a worker thread.  The embedding is
the sequential semantics of one run: the body is abstracted to its
outcome (returned normally, or raised), the cancellation token to the
boolean `stop_event.is_set()` observed when the body returns, and the
timer to an `Option` that is live while set. -/

/-- Cross-thread-visible runner state: `_thread` aliveness (the
`is_running` query), `_stop_event`, `_app_name` and `_timer`. -/
structure RunnerState where
  threadAlive : Bool
  stopSet : Bool
  appName : Option String
  timer : Option String

/-- `AppRunner.stop` (lines 95-105): a no-op when no app is running;
otherwise cancel the timeout timer, set the stop event and join with a
bounded wait (the join and its logging have no state effect that any
claim reads, so the thread flag is left untouched: the old thread may
or may not still be alive afterwards). -/
def AppRunner.stop (rs : RunnerState) : RunnerState :=
  if rs.threadAlive then { rs with timer := none, stopSet := true } else rs

/-- What a unit body did by the time control returns to the wrapper. -/
inductive BodyOutcome where
  | normal
  | raised (msg : String)
  deriving Repr, DecidableEq

/-- Bus events the core publishes, restricted to the payload fields the
claims read. -/
inductive PubEvent where
  | launchRequested (switch : Int)
  | displayUpdated (value : Int)
  | buttonPressed (button : String)
  | appStarted (app : String)
  | appFinished (app : String) (reason : String)
  | appError (app : String) (msg : String)
  deriving Repr, DecidableEq

/-- Resource state a finished run leaves behind. -/
structure WrapperResult where
  events : List PubEvent
  timer : Option String
  bus : BusState
  scopedSubIds : List String

/-- `AppRunner._run_wrapper` (lines 111-145): publish started; run the
body; on normal return publish finished with reason "timeout" iff the
stop event is set, else "normal"; on an exception publish error with
the message; in all cases the `finally` block cancels the timer and
calls `api._cleanup()`, which releases every capability-tracked
subscription and clears the tracking list.  `stopSetAtReturn` is the
value of `stop_event.is_set()` when the body returns; `timerAfterBody`
is whatever `self._timer` holds at that moment; `scopedSubIds` are the
subscription ids the capability object tracked. -/
def runWrapper (app : String) (outcome : BodyOutcome) (stopSetAtReturn : Bool)
    (_timerAfterBody : Option String) (bus : BusState) (scopedSubIds : List String) :
    WrapperResult :=
  let lifecycle :=
    match outcome with
    | .normal =>
      [PubEvent.appFinished app (if stopSetAtReturn then "timeout" else "normal")]
    | .raised msg => [PubEvent.appError app msg]
  { events := PubEvent.appStarted app :: lifecycle
    timer := none
    bus := scopedCleanup bus scopedSubIds
    scopedSubIds := [] }

/-- `AppRunner._on_timeout` (lines 147-150): when the timer fires for
the app that is still the current one and it is running, set the stop
event. -/
def AppRunner.onTimeout (rs : RunnerState) (app : String) : RunnerState :=
  if rs.appName = some app ∧ rs.threadAlive then { rs with stopSet := true } else rs

/-! ## Hardware event bridge (src/boss/core/hardware_event_bridge.py) -/

/-- The four logical LED/button colours (`models/state.py`). -/
inductive LedColor where
  | red
  | yellow
  | green
  | blue
  deriving Repr, DecidableEq

/-- The string value of a colour (`LedColor.value`). -/
def LedColor.value : LedColor → String
  | .red => "red"
  | .yellow => "yellow"
  | .green => "green"
  | .blue => "blue"

/-- Initial `_led_states`: every colour present and off
(`{c.value: False for c in LedColor}`). -/
def initLedStates : PyDict String Val :=
  [("red", .vbool false), ("yellow", .vbool false),
   ("green", .vbool false), ("blue", .vbool false)]

/-- `HardwareEventBridge._on_led_state_changed` (lines 95-103): read
`color` and `is_on` from the payload (missing `is_on` defaults to
False) and, when `color` is truthy, store the raw `is_on` value under
it.  A truthy non-string color key can never alias a colour string and
is modelled as a no-op on the string-keyed cache (an unhashable color
value, which nothing in the repository publishes, would raise
instead). -/
def onLedStateChanged (st : PyDict String Val) (payload : PyDict String Val) :
    PyDict String Val :=
  let isOn := (dictGet payload "is_on").getD (.vbool false)
  match dictGet payload "color" with
  | none => st
  | some cv =>
    if cv.truthy then
      match cv with
      | .vstr c => dictSet st c isOn
      | _ => st
    else st

/-- `HardwareEventBridge._on_button_pressed` (lines 73-77): forward the
press onto the bus iff the cached LED state for the colour is truthy
(`self._led_states.get(color, False)`); otherwise the press is gated
off. -/
def onButtonPressed (st : PyDict String Val) (color : String) : Option PubEvent :=
  if ((dictGet st color).getD (.vbool false)).truthy then
    some (PubEvent.buttonPressed color)
  else none

/-- Apply a sequence of well-typed LED-state-changed events (the shape
`_HardwareAPI.set_led` publishes: a string `color` and a boolean
`is_on`) to the cache, oldest first. -/
def applyLedEvents (updates : List (String × Bool)) : PyDict String Val :=
  updates.foldl
    (fun st u => onLedStateChanged st [("color", .vstr u.1), ("is_on", .vbool u.2)])
    initLedStates

/-- The most recent update in the sequence that targeted the given
colour, if any. -/
def lastLedUpdateFor (updates : List (String × Bool)) (color : String) : Option Bool :=
  (updates.reverse.find? (fun u => u.1 = color)).map (fun u => u.2)

/-! ## App launcher (src/boss/core/app_launcher.py) -/

/-- Python attribute lookup for `get_switch_map` on `AppManager`.
`AppLauncher._build_app_summaries` (app_launcher.py line 165) and
`ui/admin_page.py` call `self._app_manager.get_switch_map()`, but no
method or attribute of that name is defined anywhere in the repository
(`AppManager` defines only `scan_apps`, `get_app_for_switch`,
`get_manifest`, `get_all_manifests`, `get_app_dir` and private
helpers, and subclasses nothing), so the lookup raises AttributeError
at runtime.  The `Option` models the dynamic lookup: `some` would hold
the bound method if it existed. -/
def AppManager.getSwitchMapAttr : Option (AppManagerState → PyDict Int String) := none

/-- Insertion sort by a boolean "less or equal" (used below to mirror
Python `sorted`). -/
def insertLe {α : Type} (le : α → α → Bool) (a : α) : List α → List α
  | [] => [a]
  | x :: rest => if le a x then a :: x :: rest else x :: insertLe le a rest

/-- Python `sorted` on (int, str) pairs: lexicographic order. -/
def sortPairs (l : List (Int × String)) : List (Int × String) :=
  l.foldr
    (insertLe (fun a b => decide (a.1 < b.1 ∨ (a.1 = b.1 ∧ a.2 ≤ b.2))))
    []

/-- A `{switch, name, description}` summary row. -/
structure AppSummary where
  switch : Int
  name : String
  description : String
  deriving Repr, DecidableEq

/-- `AppLauncher._build_app_summaries` (lines 161-172): iterate the
sorted switch map and collect a summary for every mapped app that has a
manifest.  The first step, `self._app_manager.get_switch_map()`, is an
attribute lookup that fails (see `AppManager.getSwitchMapAttr`), so
the call raises AttributeError before any row is built; the `some`
branch is the translation of the remaining lines. -/
def buildAppSummaries (mgr : AppManagerState) : Except String (List AppSummary) :=
  match AppManager.getSwitchMapAttr with
  | none => .error "AttributeError: AppManager object has no attribute get_switch_map"
  | some getMap =>
    .ok ((sortPairs (getMap mgr)).foldl
      (fun acc kv =>
        match dictGet mgr.manifests kv.2 with
        | some m => acc ++ [⟨kv.1, m.effectiveDisplayName, m.description⟩]
        | none => acc)
      [])

/-- How `AppLauncher._on_go_pressed` ended. -/
inductive GoOutcome where
  | noApp
  | missingManifestOrDir
  | handedOff (app : String)
  | raised (msg : String)
  deriving Repr, DecidableEq

/-- Observable effects of one `_on_go_pressed` dispatch: the bus events
it published (in order), the texts written to the screen collaborator,
and how it ended. -/
structure GoResult where
  published : List PubEvent
  screenTexts : List String
  outcome : GoOutcome
  deriving Repr, DecidableEq

/-- Environment `_on_go_pressed` reads: the manager state, the set of
app directories that exist on disk (`get_app_dir` checks `is_dir()`),
the snapshotted switch value and whether the runner is running. -/
structure LauncherEnv where
  mgr : AppManagerState
  appDirs : List String
  switchValue : Int
  runnerRunning : Bool

/-- `AppManager.get_app_dir`: the app directory when it exists. -/
def getAppDir (env : LauncherEnv) (app : String) : Option String :=
  if env.appDirs.contains app then some app else none

/-- `AppLauncher._on_go_pressed` (lines 71-117): publish
launch-requested with the snapshotted switch value; resolve the app; on
no mapping write "No app at {value}" to the screen and return; on a
missing manifest or directory log and return; otherwise stop a running
app, render transition feedback ("Launching {name}..." on the screen, a
display update on the bus), build the app summaries — which raises
AttributeError, see `buildAppSummaries` — and only then construct the
AppAPI and hand off to `AppRunner.run_app`. -/
def onGoPressed (env : LauncherEnv) : GoResult :=
  let ev0 := [PubEvent.launchRequested env.switchValue]
  match getAppForSwitch env.mgr env.switchValue with
  | none =>
    ⟨ev0, ["No app at " ++ toString env.switchValue], .noApp⟩
  | some app =>
    match getManifest env.mgr app, getAppDir env app with
    | some m, some _dir =>
      let screen := ["Launching " ++ m.effectiveDisplayName ++ "..."]
      let ev1 := ev0 ++ [PubEvent.displayUpdated env.switchValue]
      match buildAppSummaries env.mgr with
      | .error msg => ⟨ev1, screen, .raised msg⟩
      | .ok _summaries => ⟨ev1, screen, .handedOff app⟩
    | _, _ => ⟨ev0, [], .missingManifestOrDir⟩

/-- The app lifecycle events among a published sequence (the sequence
the C1 scenario asserts; display updates travel on the bus too but are
not lifecycle events). -/
def lifecycleOnly (evs : List PubEvent) : List PubEvent :=
  evs.filter (fun e =>
    match e with
    | .launchRequested _ => true
    | .appStarted _ => true
    | .appFinished _ _ => true
    | .appError _ _ => true
    | _ => false)

/-! ## Association-list lemmas -/

theorem dictGet_dictSet_self {κ α : Type} [DecidableEq κ] (d : PyDict κ α) (k : κ) (v : α) :
    dictGet (dictSet d k v) k = some v := by
  induction d with
  | nil => simp [dictSet, dictGet]
  | cons p rest ih =>
    obtain ⟨pk, pv⟩ := p
    by_cases h : pk = k
    · simp [dictSet, h, dictGet]
    · simp [dictSet, h, dictGet, ih]

theorem dictGet_dictSet_ne {κ α : Type} [DecidableEq κ] (d : PyDict κ α) (k k2 : κ) (v : α)
    (h : k2 ≠ k) : dictGet (dictSet d k v) k2 = dictGet d k2 := by
  induction d with
  | nil => simp [dictSet, dictGet, Ne.symm h]
  | cons p rest ih =>
    obtain ⟨pk, pv⟩ := p
    by_cases hpk : pk = k
    · subst hpk
      simp [dictSet, dictGet, Ne.symm h]
    · simp [dictSet, hpk, dictGet, ih]

theorem mem_dictSet {κ α : Type} [DecidableEq κ] (d : PyDict κ α) (k : κ) (v : α)
    (p : κ × α) (h : p ∈ dictSet d k v) : p = (k, v) ∨ p ∈ d := by
  induction d with
  | nil =>
    simp only [dictSet, List.mem_singleton] at h
    exact .inl h
  | cons q rest ih =>
    obtain ⟨qk, qv⟩ := q
    by_cases hq : qk = k
    · subst hq
      simp only [dictSet, eq_self_iff_true, if_true, List.mem_cons] at h
      rcases h with h1 | h1
      · exact .inl h1
      · exact .inr (List.mem_cons_of_mem _ h1)
    · simp only [dictSet, if_neg hq, List.mem_cons] at h
      rcases h with h1 | h1
      · exact .inr (by simp [h1])
      · rcases ih h1 with h2 | h2
        · exact .inl h2
        · exact .inr (List.mem_cons_of_mem _ h2)

theorem dictGet_dictPop_self {κ α : Type} [DecidableEq κ] (d : PyDict κ α) (k : κ) :
    dictGet (dictPop d k) k = none := by
  induction d with
  | nil => simp [dictPop, dictGet]
  | cons p rest ih =>
    obtain ⟨pk, pv⟩ := p
    by_cases h : pk = k
    · simpa [dictPop, h] using ih
    · simpa [dictPop, dictGet, h] using ih

theorem dictGet_dictPop_ne {κ α : Type} [DecidableEq κ] (d : PyDict κ α) (k k2 : κ)
    (h : k2 ≠ k) : dictGet (dictPop d k) k2 = dictGet d k2 := by
  induction d with
  | nil => simp [dictPop]
  | cons p rest ih =>
    obtain ⟨pk, pv⟩ := p
    by_cases hpk : pk = k
    · subst hpk
      simp [dictPop, dictGet, Ne.symm h, ih]
    · simp [dictPop, hpk, dictGet, ih]

theorem removeFirst_of_not_mem {α : Type} [DecidableEq α] (l : List α) (a : α)
    (h : a ∉ l) : removeFirst l a = l := by
  induction l with
  | nil => simp [removeFirst]
  | cons x rest ih =>
    simp only [List.mem_cons, not_or] at h
    have hx : x ≠ a := Ne.symm h.1
    simp [removeFirst, hx, ih h.2]

theorem removeFirst_append_cons {α : Type} [DecidableEq α] (l1 l2 : List α) (a : α)
    (h : a ∉ l1) : removeFirst (l1 ++ a :: l2) a = l1 ++ l2 := by
  induction l1 with
  | nil => simp [removeFirst]
  | cons x rest ih =>
    simp only [List.mem_cons, not_or] at h
    have hx : x ≠ a := Ne.symm h.1
    simp [removeFirst, hx, ih h.2]

/-! ## Bus registry lemmas -/

theorem lookup_unsubscribe_self (s : BusState) (i : String) :
    dictGet (s.unsubscribe i).subscriptions i = none := by
  cases h : dictGet s.subscriptions i with
  | none => simp [BusState.unsubscribe, h]
  | some sub => simp [BusState.unsubscribe, h, dictGet_dictPop_self]

theorem lookup_unsubscribe_ne (s : BusState) (i j : String) (h : j ≠ i) :
    dictGet (s.unsubscribe i).subscriptions j = dictGet s.subscriptions j := by
  cases hh : dictGet s.subscriptions i with
  | none => simp [BusState.unsubscribe, hh]
  | some sub => simp [BusState.unsubscribe, hh, dictGet_dictPop_ne _ _ _ h]

theorem lookup_unsubscribe_none (s : BusState) (i j : String)
    (h : dictGet s.subscriptions j = none) :
    dictGet (s.unsubscribe i).subscriptions j = none := by
  by_cases hij : j = i
  · subst hij
    exact lookup_unsubscribe_self s j
  · rw [lookup_unsubscribe_ne s i j hij]
    exact h

/-- A dispatch pass over ids whose handlers all fire without raising
invokes each of them once and leaves the registry unchanged. -/
theorem dispatchIds_all_fire (e : Event) (ids : List String) (s : BusState)
    (h : ∀ i ∈ ids, ∃ sub, dictGet s.subscriptions i = some sub ∧
      matchesFilter e sub.filterDict = true ∧ sub.raises e = false) :
    dispatchIds e s ids = (ids, s) := by
  induction ids with
  | nil => rfl
  | cons i rest ih =>
    obtain ⟨sub, hl, hm, hr⟩ := h i (List.mem_cons_self i rest)
    have hrest := fun j hj => h j (List.mem_cons_of_mem i hj)
    simp [dispatchIds, hl, hm, hr, ih hrest]

/-- A dispatch pass over a snapshot containing exactly one raising
handler invokes every id once, in order, and ends in the registry with
just that handler unsubscribed. -/
theorem dispatchIds_one_raiser (e : Event) (s : BusState) (hid : String)
    (hsub : Subscription) (l1 l2 : List String)
    (hh : dictGet s.subscriptions hid = some hsub)
    (hm : matchesFilter e hsub.filterDict = true)
    (hr : hsub.raises e = true)
    (hn1 : hid ∉ l1) (hn2 : hid ∉ l2)
    (hothers : ∀ i ∈ l1 ++ l2, ∃ sub, dictGet s.subscriptions i = some sub ∧
      matchesFilter e sub.filterDict = true ∧ sub.raises e = false) :
    dispatchIds e s (l1 ++ hid :: l2) = (l1 ++ hid :: l2, s.unsubscribe hid) := by
  induction l1 with
  | nil =>
    have hl2 : ∀ i ∈ l2, ∃ sub,
        dictGet (s.unsubscribe hid).subscriptions i = some sub ∧
        matchesFilter e sub.filterDict = true ∧ sub.raises e = false := by
      intro i hi
      obtain ⟨sub, hl, hm2, hr2⟩ := hothers i (by simp [hi])
      have hne : i ≠ hid := fun hq => hn2 (hq ▸ hi)
      exact ⟨sub, by rw [lookup_unsubscribe_ne _ _ _ hne]; exact hl, hm2, hr2⟩
    simp [dispatchIds, hh, hm, hr, dispatchIds_all_fire e l2 (s.unsubscribe hid) hl2]
  | cons a rest ih =>
    obtain ⟨asub, hal, ham, har⟩ := hothers a (by simp)
    have hn1r : hid ∉ rest := fun hq => hn1 (List.mem_cons_of_mem a hq)
    have hothersr : ∀ i ∈ rest ++ l2, ∃ sub, dictGet s.subscriptions i = some sub ∧
        matchesFilter e sub.filterDict = true ∧ sub.raises e = false := by
      intro i hi
      apply hothers
      rcases List.mem_append.mp hi with hi2 | hi2
      · exact List.mem_append.mpr (.inl (List.mem_cons_of_mem a hi2))
      · exact List.mem_append.mpr (.inr hi2)
    simp [dispatchIds, hal, ham, har, ih hn1r hothersr]

/-- C2: a subscribed handler that raises during dispatch of an event of
its type is invoked exactly once for that event and its subscription is
removed; a later publish of the same type invokes it zero times, while
every other subscription for the type — registered before or after it —
fires for both the failing event and the later one. -/
theorem C2_raising_handler_fires_once_then_removed
    (s : BusState) (E : String) (e e2 : Event) (hid : String)
    (hsub : Subscription) (l1 l2 : List String)
    (hE : e.eventType = E) (hE2 : e2.eventType = E)
    (hidx : dictGet s.typeIndex E = some (l1 ++ hid :: l2))
    (hh : dictGet s.subscriptions hid = some hsub)
    (htype : hsub.eventType = E)
    (hm : matchesFilter e hsub.filterDict = true)
    (hr : hsub.raises e = true)
    (hn1 : hid ∉ l1) (hn2 : hid ∉ l2)
    (hothers : ∀ i ∈ l1 ++ l2, ∃ sub, dictGet s.subscriptions i = some sub ∧
      matchesFilter e sub.filterDict = true ∧ sub.raises e = false ∧
      matchesFilter e2 sub.filterDict = true ∧ sub.raises e2 = false) :
    (s.dispatch e).1 = l1 ++ hid :: l2 ∧
    (s.dispatch e).1.count hid = 1 ∧
    dictGet (s.dispatch e).2.subscriptions hid = none ∧
    dictGet (s.dispatch e).2.typeIndex E = some (l1 ++ l2) ∧
    ((s.dispatch e).2.dispatch e2).1 = l1 ++ l2 ∧
    hid ∉ ((s.dispatch e).2.dispatch e2).1 := by
  have hothers1 : ∀ i ∈ l1 ++ l2, ∃ sub, dictGet s.subscriptions i = some sub ∧
      matchesFilter e sub.filterDict = true ∧ sub.raises e = false := by
    intro i hi
    obtain ⟨sub, a1, a2, a3, _, _⟩ := hothers i hi
    exact ⟨sub, a1, a2, a3⟩
  have hmain := dispatchIds_one_raiser e s hid hsub l1 l2 hh hm hr hn1 hn2 hothers1
  have hdisp : s.dispatch e = (l1 ++ hid :: l2, s.unsubscribe hid) := by
    unfold BusState.dispatch
    rw [hE, hidx]
    exact hmain
  have hidmem : hid ∉ l1 ++ l2 := by
    intro hq
    rcases List.mem_append.mp hq with hq2 | hq2
    · exact hn1 hq2
    · exact hn2 hq2
  have hidx2 : dictGet (s.unsubscribe hid).typeIndex E = some (l1 ++ l2) := by
    unfold BusState.unsubscribe
    rw [hh]
    simp only [htype, hidx]
    rw [removeFirst_append_cons l1 l2 hid hn1]
    exact dictGet_dictSet_self _ _ _
  have hothers2 : ∀ i ∈ l1 ++ l2, ∃ sub,
      dictGet (s.unsubscribe hid).subscriptions i = some sub ∧
      matchesFilter e2 sub.filterDict = true ∧ sub.raises e2 = false := by
    intro i hi
    obtain ⟨sub, a1, _, _, a4, a5⟩ := hothers i hi
    have hne : i ≠ hid := fun hq => hidmem (hq ▸ hi)
    exact ⟨sub, by rw [lookup_unsubscribe_ne _ _ _ hne]; exact a1, a4, a5⟩
  have hdisp2 : (s.unsubscribe hid).dispatch e2 = (l1 ++ l2, s.unsubscribe hid) := by
    unfold BusState.dispatch
    rw [hE2, hidx2]
    exact dispatchIds_all_fire e2 (l1 ++ l2) _ hothers2
  refine ⟨by rw [hdisp], ?_, ?_, ?_, ?_, ?_⟩
  · rw [hdisp]
    simp [List.count_append, List.count_cons, List.count_eq_zero_of_not_mem hn1,
      List.count_eq_zero_of_not_mem hn2]
  · rw [hdisp]
    exact lookup_unsubscribe_self s hid
  · rw [hdisp]
    exact hidx2
  · rw [hdisp]
    rw [hdisp2]
  · rw [hdisp, hdisp2]
    exact hidmem

/-- Concrete registry for the C2 witness: handler "h" always raises,
handler "g" never does, both subscribed to type "t". -/
def wSubH : Subscription := ⟨"h", "t", fun _ => true, none⟩

/-- The non-raising witness subscription. -/
def wSubG : Subscription := ⟨"g", "t", fun _ => false, none⟩

/-- The witness registry holding both subscriptions. -/
def wBus : BusState := ⟨[("h", wSubH), ("g", wSubG)], [("t", ["h", "g"])]⟩

/-- The witness event. -/
def wEvt : Event := ⟨"t", []⟩

theorem C2_raising_handler_fires_once_then_removed_witness :
    (wBus.dispatch wEvt).1 = ["h", "g"] ∧
    (wBus.dispatch wEvt).1.count "h" = 1 ∧
    dictGet (wBus.dispatch wEvt).2.subscriptions "h" = none ∧
    dictGet (wBus.dispatch wEvt).2.typeIndex "t" = some ["g"] ∧
    ((wBus.dispatch wEvt).2.dispatch wEvt).1 = ["g"] ∧
    "h" ∉ ((wBus.dispatch wEvt).2.dispatch wEvt).1 := by
  have h := C2_raising_handler_fires_once_then_removed wBus "t" wEvt wEvt "h" wSubH
    [] ["g"] rfl rfl rfl rfl rfl rfl rfl (by simp) (by simp)
    (by
      intro i hi
      simp only [List.nil_append, List.mem_singleton] at hi
      subst hi
      exact ⟨wSubG, rfl, rfl, rfl, rfl, rfl⟩)
  exact h

/-! ## Cleanup lemma -/

theorem lookup_scopedCleanup_none (ids : List String) (bus : BusState) (i : String)
    (h : i ∈ ids ∨ dictGet bus.subscriptions i = none) :
    dictGet (scopedCleanup bus ids).subscriptions i = none := by
  induction ids generalizing bus with
  | nil =>
    rcases h with h | h
    · cases h
    · exact h
  | cons a rest ih =>
    have hstep : scopedCleanup bus (a :: rest) = scopedCleanup (bus.unsubscribe a) rest := rfl
    rw [hstep]
    rcases h with h | h
    · rcases List.mem_cons.mp h with h1 | h1
      · subst h1
        exact ih (bus.unsubscribe i) (.inr (lookup_unsubscribe_self bus i))
      · exact ih (bus.unsubscribe a) (.inl h1)
    · exact ih (bus.unsubscribe a) (.inr (lookup_unsubscribe_none bus a i h))

/-- C3: on every exit path of a run — normal return, exception raised
by the body, and replacement or explicit stop — the timeout timer is
cancelled and all capability-tracked subscriptions are released from
the bus; no timer and no capability-owned subscription survives the end
of the run that created it. -/
theorem C3_run_exit_releases_timer_and_subscriptions
    (app : String) (outcome : BodyOutcome) (stopSet : Bool)
    (timer : Option String) (bus : BusState) (owned : List String) :
    (runWrapper app outcome stopSet timer bus owned).timer = none ∧
    (runWrapper app outcome stopSet timer bus owned).scopedSubIds = [] ∧
    (∀ i ∈ owned,
      dictGet (runWrapper app outcome stopSet timer bus owned).bus.subscriptions i
        = none) ∧
    (∀ rs : RunnerState, rs.threadAlive = true → (AppRunner.stop rs).timer = none) := by
  refine ⟨rfl, rfl, ?_, ?_⟩
  · intro i hi
    exact lookup_scopedCleanup_none owned bus i (.inl hi)
  · intro rs hrs
    simp [AppRunner.stop, hrs]

/-- Bus registry holding one capability-owned subscription, for the C3
witness. -/
def wBus2 : BusState :=
  ⟨[("s1", ⟨"s1", "t", fun _ => false, none⟩)], [("t", ["s1"])]⟩

theorem C3_run_exit_releases_timer_and_subscriptions_witness :
    (runWrapper "a" .normal false (some "timeout-a") wBus2 ["s1"]).timer = none ∧
    dictGet (runWrapper "a" .normal false (some "timeout-a") wBus2 ["s1"]).bus.subscriptions
      "s1" = none ∧
    (AppRunner.stop ⟨true, false, some "a", some "timeout-a"⟩).timer = none := by
  have h := C3_run_exit_releases_timer_and_subscriptions
    "a" .normal false (some "timeout-a") wBus2 ["s1"]
  exact ⟨h.1, h.2.2.1 "s1" (by simp), h.2.2.2 ⟨true, false, some "a", some "timeout-a"⟩ rfl⟩

/-- C9: the finished event reason is derived solely from the
cancellation token when the body returns: a normal return with the stop
event set — which an explicit stop (and hence a replacement launch)
produces, timer or no timer — yields reason "timeout", so the reason
does not distinguish a timer-triggered cancellation from an explicit
stop. -/
theorem C9_finished_reason_only_from_token
    (app : String) (stopSet : Bool) (timer : Option String)
    (bus : BusState) (owned : List String) :
    (runWrapper app .normal stopSet timer bus owned).events =
      [PubEvent.appStarted app,
       PubEvent.appFinished app (if stopSet then "timeout" else "normal")] ∧
    (∀ rs : RunnerState, rs.threadAlive = true → (AppRunner.stop rs).stopSet = true) ∧
    (stopSet = true →
      (runWrapper app .normal stopSet timer bus owned).events =
        [PubEvent.appStarted app, PubEvent.appFinished app "timeout"]) := by
  refine ⟨rfl, ?_, ?_⟩
  · intro rs hrs
    simp [AppRunner.stop, hrs]
  · intro hset
    subst hset
    rfl

theorem C9_finished_reason_only_from_token_witness :
    (AppRunner.stop ⟨true, false, some "a", some "timer-a"⟩).stopSet = true ∧
    (runWrapper "a" .normal true none wBus2 []).events =
      [PubEvent.appStarted "a", PubEvent.appFinished "a" "timeout"] := by
  have h := C9_finished_reason_only_from_token "a" true none wBus2 []
  exact ⟨h.2.1 ⟨true, false, some "a", some "timer-a"⟩ rfl, h.2.2 rfl⟩

/-- C6: publishing into a full bounded queue drops the oldest queued
event and enqueues the new one; publish never raises and the queue
never exceeds the configured capacity; in particular with capacity 2,
publishing three events without draining leaves the newest two. -/
theorem C6_publish_overflow_drops_oldest (cap : Nat) (q : List Event) (e : Event)
    (hcap : 1 ≤ cap) (hlen : q.length ≤ cap) :
    (∃ q2, publish cap q e = .ok q2 ∧ q2.length ≤ cap ∧
      (q.length < cap → q2 = q ++ [e]) ∧
      (q.length = cap → q2 = q.tail ++ [e])) ∧
    (∀ e1 e2 e3 : Event,
      publish 2 [] e1 = .ok [e1] ∧
      publish 2 [e1] e2 = .ok [e1, e2] ∧
      publish 2 [e1, e2] e3 = .ok [e2, e3]) := by
  constructor
  · by_cases hfull : q.length < cap
    · have hc : ¬(0 < cap ∧ cap ≤ q.length) := by omega
      refine ⟨q ++ [e], ?_, ?_, fun _ => rfl, fun hq => absurd hq (by omega)⟩
      · simp [publish, putNowait, hc]
      · simp only [List.length_append, List.length_singleton]
        omega
    · have hq : q.length = cap := by omega
      cases q with
      | nil =>
        exfalso
        simp only [List.length_nil] at hq
        omega
      | cons x rest =>
        have hc : 0 < cap ∧ cap ≤ (x :: rest).length := by
          constructor <;> omega
        have hc2 : ¬(0 < cap ∧ cap ≤ rest.length) := by
          simp only [List.length_cons] at hq
          omega
        have h1 : cap ≤ rest.length + 1 := by
          simp only [List.length_cons] at hq
          omega
        have h2 : ¬cap ≤ rest.length := by
          simp only [List.length_cons] at hq
          omega
        refine ⟨rest ++ [e], ?_, ?_, ?_, fun _ => rfl⟩
        · simp [publish, putNowait, getNowait, hc, hc2, h1, h2]
        · simp only [List.length_append, List.length_singleton]
          simp only [List.length_cons] at hq
          omega
        · intro hlt
          omega
  · intro e1 e2 e3
    exact ⟨rfl, rfl, rfl⟩

/-- Concrete event for the C6 witness. -/
def qEvt : Event := ⟨"input.switch.changed", []⟩

theorem C6_publish_overflow_drops_oldest_witness :
    1 ≤ 2 ∧ ([qEvt, qEvt] : List Event).length ≤ 2 ∧
    ((∃ q2, publish 2 [qEvt, qEvt] qEvt = .ok q2 ∧ q2.length ≤ 2 ∧
      (([qEvt, qEvt] : List Event).length < 2 → q2 = [qEvt, qEvt] ++ [qEvt]) ∧
      (([qEvt, qEvt] : List Event).length = 2 →
        q2 = ([qEvt, qEvt] : List Event).tail ++ [qEvt])) ∧
    (∀ e1 e2 e3 : Event,
      publish 2 [] e1 = .ok [e1] ∧
      publish 2 [e1] e2 = .ok [e1, e2] ∧
      publish 2 [e1, e2] e3 = .ok [e2, e3])) :=
  ⟨by decide, by decide,
   C6_publish_overflow_drops_oldest 2 [qEvt, qEvt] qEvt (by decide) (by decide)⟩

/-- C10: when the mapping file exists but is not parseable JSON, the
scan propagates the parse exception and leaves the catalog partially
updated — manifests replaced by the new scan, selector map still
holding its pre-scan contents. -/
theorem C10_scan_nonatomic_on_mapping_parse_error
    (inp : ScanInputs) (s : AppManagerState) (hbad : inp.mappingsFile = some none) :
    (scanApps inp s).2 = some "JSONDecodeError" ∧
    (scanApps inp s).1.manifests = loadManifests inp ∧
    (scanApps inp s).1.switchMap = s.switchMap := by
  have hl : loadMappings inp (loadManifests inp) = .error "JSONDecodeError" := by
    unfold loadMappings
    rw [hbad]
  simp [scanApps, hl]

/-- Scan inputs with an unparseable mapping file, for the C10
witness. -/
def badMapInputs : ScanInputs := ⟨true, [], some none⟩

theorem C10_scan_nonatomic_on_mapping_parse_error_witness :
    badMapInputs.mappingsFile = some none ∧
    (scanApps badMapInputs ⟨[], [(3, "old_app")]⟩).2 = some "JSONDecodeError" ∧
    (scanApps badMapInputs ⟨[], [(3, "old_app")]⟩).1.switchMap = [(3, "old_app")] := by
  have h := C10_scan_nonatomic_on_mapping_parse_error badMapInputs ⟨[], [(3, "old_app")]⟩ rfl
  exact ⟨rfl, h.1, h.2.2⟩

/-- C8: a second scan with unchanged inputs yields a catalog equal in
content to the first (same manifests, same effective selector map, same
reported outcome), and a successful scan replaces the catalog wholesale
— its result does not depend on the pre-scan state at all. -/
theorem C8_scan_idempotent_and_wholesale (inp : ScanInputs) (s : AppManagerState) :
    (scanApps inp (scanApps inp s).1).1 = (scanApps inp s).1 ∧
    (scanApps inp (scanApps inp s).1).2 = (scanApps inp s).2 ∧
    ((scanApps inp s).2 = none → ∀ t : AppManagerState, scanApps inp t = scanApps inp s) := by
  unfold scanApps
  cases hl : loadMappings inp (loadManifests inp) with
  | ok sm => simp [hl]
  | error exc => simp [hl]

/-- Scan inputs with an empty but parseable mapping file, for the C8
witness. -/
def okMapInputs : ScanInputs := ⟨true, [], some (some [])⟩

theorem C8_scan_idempotent_and_wholesale_witness :
    (scanApps okMapInputs ⟨[], []⟩).2 = none ∧
    scanApps okMapInputs ⟨[], [(9, "stale")]⟩ = scanApps okMapInputs ⟨[], []⟩ := by
  have h := C8_scan_idempotent_and_wholesale okMapInputs ⟨[], []⟩
  exact ⟨rfl, h.2.2 rfl ⟨[], [(9, "stale")]⟩⟩

/-! ## LED gate lemmas -/

theorem ledColor_value_ne_empty (c : LedColor) : c.value ≠ "" := by
  cases c <;> simp [LedColor.value]

/-- A well-typed LED event updates the cache at its colour key (unless
the colour string is empty, which Python truthiness gates out). -/
theorem onLedStateChanged_typed (st : PyDict String Val) (uc : String) (ub : Bool) :
    onLedStateChanged st [("color", .vstr uc), ("is_on", .vbool ub)] =
      if uc = "" then st else dictSet st uc (.vbool ub) := by
  have h1 : dictGet [("color", Val.vstr uc), ("is_on", Val.vbool ub)] "color"
      = some (.vstr uc) := rfl
  have h2 : dictGet [("color", Val.vstr uc), ("is_on", Val.vbool ub)] "is_on"
      = some (.vbool ub) := rfl
  unfold onLedStateChanged
  rw [h1, h2]
  by_cases h : uc = ""
  · subst h
    simp [Val.truthy]
  · simp [Val.truthy, h]

/-- The cache entry for a colour always holds the boolean carried by
the most recent well-typed LED event for that colour (false before any
such event). -/
theorem led_cache_get (updates : List (String × Bool)) (c : LedColor) :
    dictGet (applyLedEvents updates) c.value =
      some (Val.vbool ((lastLedUpdateFor updates c.value).getD false)) := by
  induction updates using List.reverseRecOn with
  | nil => cases c <;> rfl
  | append_singleton us u ih =>
    obtain ⟨uc, ub⟩ := u
    have happ : applyLedEvents (us ++ [(uc, ub)]) =
        onLedStateChanged (applyLedEvents us)
          [("color", .vstr uc), ("is_on", .vbool ub)] := by
      simp [applyLedEvents, List.foldl_append]
    rw [happ, onLedStateChanged_typed]
    by_cases huc : uc = c.value
    · subst huc
      rw [if_neg (ledColor_value_ne_empty c)]
      rw [dictGet_dictSet_self]
      have hlast : lastLedUpdateFor (us ++ [(c.value, ub)]) c.value = some ub := by
        simp [lastLedUpdateFor]
      rw [hlast]
      rfl
    · have hlast : lastLedUpdateFor (us ++ [(uc, ub)]) c.value =
          lastLedUpdateFor us c.value := by
        simp [lastLedUpdateFor, huc]
      rw [hlast]
      by_cases hemp : uc = ""
      · rw [if_pos hemp]
        exact ih
      · rw [if_neg hemp]
        rw [dictGet_dictSet_ne _ _ _ _ (fun h => huc h.symm)]
        exact ih

/-- C4: a colour-button press is forwarded onto the bus exactly when
the most recently processed LED-state-changed event for that colour
carried is_on = true; before any such event the gate is closed and the
press is not forwarded. -/
theorem C4_button_press_gated_by_last_led_event
    (updates : List (String × Bool)) (c : LedColor) :
    onButtonPressed (applyLedEvents updates) c.value =
      (if lastLedUpdateFor updates c.value = some true
       then some (PubEvent.buttonPressed c.value) else none) := by
  unfold onButtonPressed
  rw [led_cache_get]
  cases hl : lastLedUpdateFor updates c.value with
  | none => simp [Val.truthy]
  | some b => cases b <;> simp [Val.truthy]

/-! ## Selector-map lemmas -/

/-- Every pair produced by the mapping fold either was already in the
accumulator or comes from a raw entry with a parseable key and a known
app. -/
theorem mem_mappingFold (manifests : PyDict String AppManifest) :
    ∀ (entries : List (String × String)) (acc : PyDict Int String) (p : Int × String),
    p ∈ entries.foldl (mappingStep manifests) acc →
    p ∈ acc ∨ (dictHas manifests p.2 = true ∧
      ∃ k, (k, p.2) ∈ entries ∧ pyInt? k = some p.1) := by
  intro entries
  induction entries with
  | nil => intro acc p h; exact .inl h
  | cons kv rest ih =>
    intro acc p h
    rcases ih (mappingStep manifests acc kv) p h with h1 | h1
    · cases hk : pyInt? kv.1 with
      | none =>
        simp only [mappingStep, hk] at h1
        exact .inl h1
      | some v =>
        simp only [mappingStep, hk] at h1
        by_cases hh : dictHas manifests kv.2 = true
        · rw [if_pos hh] at h1
          rcases mem_dictSet acc v kv.2 p h1 with h2 | h2
          · subst h2
            exact .inr ⟨hh, kv.1, by simp, hk⟩
          · exact .inl h2
        · rw [if_neg hh] at h1
          exact .inl h1
    · obtain ⟨hhas, k, hk1, hk2⟩ := h1
      exact .inr ⟨hhas, k, List.mem_cons_of_mem _ hk1, hk2⟩

/-- If no entry of the raw mapping denotes the integer v with a known
app, the fold leaves no binding at v. -/
theorem get_none_mappingFold (manifests : PyDict String AppManifest) :
    ∀ (entries : List (String × String)) (acc : PyDict Int String) (v : Int),
    dictGet acc v = none →
    (∀ k a, (k, a) ∈ entries → pyInt? k = some v → dictHas manifests a = false) →
    dictGet (entries.foldl (mappingStep manifests) acc) v = none := by
  intro entries
  induction entries with
  | nil => intro acc v h _; exact h
  | cons kv rest ih =>
    intro acc v h hall
    apply ih
    · cases hk : pyInt? kv.1 with
      | none =>
        simp only [mappingStep, hk]
        exact h
      | some v2 =>
        simp only [mappingStep, hk]
        by_cases hh : dictHas manifests kv.2 = true
        · have hne : v ≠ v2 := by
            intro hq
            subst hq
            have hfalse := hall kv.1 kv.2 (by simp) hk
            rw [hfalse] at hh
            exact Bool.noConfusion hh
          rw [if_pos hh, dictGet_dictSet_ne _ _ _ _ hne]
          exact h
        · rw [if_neg hh]
          exact h
    · intro k a hk ha
      exact hall k a (List.mem_cons_of_mem _ hk) ha

/-- Manifest used by the C7 scenario. -/
def c7manifest : AppManifest :=
  ⟨"real_app", none, "", "1.0.0", "", "main.py", 120, "return", false, false, [], [], []⟩

/-- Raw manifest file content producing `c7manifest` under a scan. -/
def c7rawManifest : PyDict String Val := [("name", .vstr "real_app")]

/-- Raw mapping file of the C7 counterexample: the key "7" references
an unknown unit, while the differently-spelled key "07" denotes the
same integer 7 and references a catalogued unit. -/
def c7raw : PyDict String String := [("7", "ghost"), ("07", "real_app")]

/-- Scan inputs of the C7 counterexample. -/
def c7inputs : ScanInputs :=
  ⟨true, [⟨"real_app", true, some (some c7rawManifest)⟩], some (some c7raw)⟩

/-- C7 counterexample: the entry ("7", "ghost") references a unit
absent from the catalog and is excluded from the effective map, yet
resolving its selector value 7 returns some "real_app" rather than
none, because Python `int()` is not injective on strings and the
retained key "07" denotes the same integer. -/
theorem C7_counterexample_resolve_not_none :
    pyInt? "7" = some 7 ∧
    pyInt? "07" = some 7 ∧
    dictHas (scanApps c7inputs ⟨[], []⟩).1.manifests "ghost" = false ∧
    (scanApps c7inputs ⟨[], []⟩).1.switchMap = [(7, "real_app")] ∧
    getAppForSwitch (scanApps c7inputs ⟨[], []⟩).1 7 = some "real_app" := by
  exact ⟨rfl, rfl, rfl, rfl, rfl⟩

/-- C7 (amended): mapping entries with non-integer keys or units absent
from the catalog are dropped without aborting the scan; every retained
entry binds an integer key to a catalogued unit; and resolve of an
integer value returns none whenever no raw entry denoting that integer
references a catalogued unit (so a dropped entry's value resolves to
none unless a differently-spelled key denoting the same integer is
retained). -/
theorem C7_mapping_entries_validated (raw : PyDict String String)
    (manifests : PyDict String AppManifest) (inp : ScanInputs)
    (hfile : inp.mappingsFile = some (some raw)) :
    (∃ sm, loadMappings inp manifests = .ok sm) ∧
    (∀ sm, loadMappings inp manifests = .ok sm →
      (∀ p : Int × String, p ∈ sm → dictHas manifests p.2 = true ∧
        ∃ k, (k, p.2) ∈ raw ∧ pyInt? k = some p.1) ∧
      (∀ v : Int, (∀ k a, (k, a) ∈ raw → pyInt? k = some v →
          dictHas manifests a = false) → dictGet sm v = none)) := by
  have hload : loadMappings inp manifests = .ok (raw.foldl (mappingStep manifests) []) := by
    unfold loadMappings
    rw [hfile]
  refine ⟨⟨_, hload⟩, ?_⟩
  intro sm hsm
  rw [hload] at hsm
  injection hsm with hsm
  subst hsm
  constructor
  · intro p hp
    rcases mem_mappingFold manifests raw [] p hp with h | h
    · cases h
    · exact h
  · intro v hv
    exact get_none_mappingFold manifests raw [] v rfl hv

/-- Raw mapping for the C7 witness: one unparseable key, one unknown
unit at 5, one valid entry at 6. -/
def c7wraw : PyDict String String :=
  [("abc", "real_app"), ("5", "ghost"), ("6", "real_app")]

/-- Catalog for the C7 witness. -/
def c7wmanifests : PyDict String AppManifest := [("real_app", c7manifest)]

/-- Scan inputs for the C7 witness. -/
def c7winputs : ScanInputs := ⟨true, [], some (some c7wraw)⟩

theorem C7_mapping_entries_validated_witness :
    c7winputs.mappingsFile = some (some c7wraw) ∧
    loadMappings c7winputs c7wmanifests = .ok [(6, "real_app")] ∧
    dictGet ([(6, "real_app")] : PyDict Int String) 5 = none ∧
    dictHas c7wmanifests "real_app" = true := by
  have h := C7_mapping_entries_validated c7wraw c7wmanifests c7winputs rfl
  have h5 : dictGet ([(6, "real_app")] : PyDict Int String) 5 = none := by
    apply (h.2 [(6, "real_app")] rfl).2 5
    intro k a hk hpk
    simp only [c7wraw, List.mem_cons, List.not_mem_nil, or_false, Prod.mk.injEq] at hk
    rcases hk with ⟨h1, h2⟩ | ⟨h1, h2⟩ | ⟨h1, h2⟩ <;> subst h1 <;> subst h2
    · exact absurd hpk (by decide)
    · rfl
    · exact absurd hpk (by decide)
  exact ⟨rfl, rfl, h5, rfl⟩

/-! ## Manifest validation lemmas -/

/-- A successfully decoded timeout satisfies the ge=1 constraint. -/
theorem decodeTimeoutSeconds_ge_one (d : PyDict String Val) (t : Int)
    (h : decodeTimeoutSeconds d = .ok t) : 1 ≤ t := by
  unfold decodeTimeoutSeconds at h
  split at h
  · exact Except.noConfusion h
  · split at h
    · exact Except.noConfusion h
    · injection h with h2
      subst h2
      omega

/-- When the raw dict carries an integer timeout field, the decoded
timeout is that integer. -/
theorem decodeTimeoutSeconds_value (d : PyDict String Val) (t : Int) (n : Int)
    (h : decodeTimeoutSeconds d = .ok t)
    (hget : dictGet d "timeout_seconds" = some (.vint n)) : t = n := by
  unfold decodeTimeoutSeconds optField at h
  rw [hget] at h
  simp only [asInt] at h
  split at h
  · exact Except.noConfusion h
  · injection h with h2
    exact h2.symm

/-- A validated manifest's timeout is the one the timeout decoder
produced. -/
theorem validate_ok_timeout (d : PyDict String Val) (m : AppManifest)
    (h : validateManifest d = .ok m) :
    decodeTimeoutSeconds d = .ok m.timeoutSeconds := by
  unfold validateManifest at h
  repeat (split at h <;> try exact Except.noConfusion h)
  injection h with h2
  subst h2
  assumption

/-- When `timeout_behavior` is absent or carries a non-deprecated
value, the migration is just the legacy-key strip. -/
theorem migrate_passthrough (raw : PyDict String Val)
    (htb : ∀ v, dictGet raw "timeout_behavior" = some v →
      Val.beq v (.vstr "none") = false ∧ Val.beq v (.vstr "rerun") = false) :
    migrateManifestV2 raw = .ok (dictPop raw "external_apis") := by
  unfold migrateManifestV2 V2_STRIP_KEYS
  simp only [List.foldl]
  have hget : dictGet (dictPop raw "external_apis") "timeout_behavior" =
      dictGet raw "timeout_behavior" :=
    dictGet_dictPop_ne _ _ _ (by decide)
  rw [hget]
  cases hv : dictGet raw "timeout_behavior" with
  | none => simp [Val.beq]
  | some v =>
    obtain ⟨hb1, hb2⟩ := htb v hv
    simp [hb1, hb2]

/-- Raw manifest of the C5 counterexample: an integer timeout of 0
together with the deprecated timeout behavior "none". -/
def c5raw : PyDict String Val :=
  [("name", .vstr "x"), ("timeout_seconds", .vint 0), ("timeout_behavior", .vstr "none")]

/-- C5 counterexample: this raw manifest has an integer timeout field
below 1 second, yet the migrate-then-validate pipeline succeeds: the
migration normalizes the deprecated behavior value and bumps the
timeout to 900 before validation sees it. -/
theorem C5_counterexample_low_timeout_admitted :
    dictGet c5raw "timeout_seconds" = some (.vint 0) ∧
    parseManifest c5raw =
      .ok ⟨"x", none, "", "1.0.0", "", "main.py", 900, "return",
           false, false, [], [], []⟩ := by
  exact ⟨rfl, rfl⟩

/-- C5 (amended): a raw manifest whose timeout field is an integer
below 1 fails the pipeline unless its `timeout_behavior` is one of the
deprecated values "none"/"rerun" (which the migration rewrites,
bumping the timeout to 900); and in all cases no manifest with
timeout_seconds below 1 is ever admitted. -/
theorem C5_low_timeout_rejected_without_deprecated_behavior
    (raw : PyDict String Val) (n : Int)
    (hts : dictGet raw "timeout_seconds" = some (.vint n)) (hn : n < 1)
    (htb : ∀ v, dictGet raw "timeout_behavior" = some v →
      Val.beq v (.vstr "none") = false ∧ Val.beq v (.vstr "rerun") = false) :
    (∃ err, parseManifest raw = .error err) ∧
    (∀ raw2 m, parseManifest raw2 = .ok m → 1 ≤ m.timeoutSeconds) := by
  constructor
  · have hmig := migrate_passthrough raw htb
    have hpipe : parseManifest raw = validateManifest (dictPop raw "external_apis") := by
      unfold parseManifest
      rw [hmig]
    cases hp : parseManifest raw with
    | error e => exact ⟨e, rfl⟩
    | ok m =>
      exfalso
      rw [hpipe] at hp
      have hts2 : dictGet (dictPop raw "external_apis") "timeout_seconds" =
          some (.vint n) := by
        rw [dictGet_dictPop_ne _ _ _ (by decide)]
        exact hts
      have hok := validate_ok_timeout _ _ hp
      have h1 := decodeTimeoutSeconds_ge_one _ _ hok
      have h2 := decodeTimeoutSeconds_value _ _ n hok hts2
      omega
  · intro raw2 m hm
    unfold parseManifest at hm
    cases hmg : migrateManifestV2 raw2 with
    | error e =>
      rw [hmg] at hm
      exact Except.noConfusion hm
    | ok d =>
      rw [hmg] at hm
      simp only [] at hm
      exact decodeTimeoutSeconds_ge_one _ _ (validate_ok_timeout _ _ hm)

/-- Raw manifest for the C5 witness: integer timeout 0 and no
timeout_behavior field. -/
def c5wraw : PyDict String Val := [("name", .vstr "y"), ("timeout_seconds", .vint 0)]

theorem C5_low_timeout_rejected_without_deprecated_behavior_witness :
    dictGet c5wraw "timeout_seconds" = some (.vint 0) ∧ (0 : Int) < 1 ∧
    (∃ err, parseManifest c5wraw = .error err) := by
  have h := C5_low_timeout_rejected_without_deprecated_behavior c5wraw 0 rfl
    (by decide)
    (by
      intro v hv
      exact Option.noConfusion hv)
  exact ⟨rfl, by decide, h.1⟩

/-! ## C1 scenario -/

/-- The echo unit manifest of the C1 scenario. -/
def echoManifest : AppManifest :=
  ⟨"echo_unit", none, "", "1.0.0", "", "main.py", 30, "return",
   false, false, [], [], []⟩

/-- The C1 launch environment: SelectorMap maps 7 to "echo_unit", the
unit is catalogued with an existing directory, the selector reads 7 and
nothing is running. -/
def c1env : LauncherEnv :=
  ⟨⟨[("echo_unit", echoManifest)], [(7, "echo_unit")]⟩, ["echo_unit"], 7, false⟩

/-- C1: with the selector mapped to an existing unit, the go handler
publishes launch-requested(switch=7) and then raises AttributeError in
`_build_app_summaries` (no `get_switch_map` on AppManager), so it never
reaches the Runner handoff: the only lifecycle event published is
launch-requested — not the claimed
[launch-requested, started, finished] sequence. -/
theorem C1_go_handler_raises_before_runner_handoff :
    getAppForSwitch c1env.mgr 7 = some "echo_unit" ∧
    getManifest c1env.mgr "echo_unit" = some echoManifest ∧
    getAppDir c1env "echo_unit" = some "echo_unit" ∧
    (onGoPressed c1env).outcome =
      .raised "AttributeError: AppManager object has no attribute get_switch_map" ∧
    lifecycleOnly (onGoPressed c1env).published = [.launchRequested 7] := by
  exact ⟨rfl, rfl, rfl, rfl, rfl⟩

end Boss
